import Mathlib

/-!
# Verification of `typenames` (jayqi/typenames, src/typenames.py)

A shallow embedding of the library's data model and algorithms:

* the `remove_modules` name-trimming rules (module-name strings compiled to
  anchored regular expressions, plus the two pre-compiled patterns the library
  ships), modelled by a small executable matcher for the regex fragment those
  patterns use;
* the configuration dataclass `TypenamesConfig` with its `__post_init__`
  validation of the three syntax-choice enumerations;
* a model `PyExpr` of the runtime type-annotation values the library inspects
  (classes, `typing.Union[...]`, PEP 604 `|` unions, parameterized generic
  aliases, callable parameter lists, literal values), together with
  `get_origin`/`get_args` and the runtime-representation classes that the
  classification predicates test with `type(x) is ...`;
* the node tree built by `parse_type_tree` and the recursive stringifier
  (`__str__` of `TypeNode`, `GenericNode`, `ParamsListNode`, `LiteralNode`).

The embedding models CPython 3.10+ semantics (the version family on which the
PEP 604 `|` operator exists, so `OR_OPERATOR_SUPPORTED` is true); host-runtime
facts baked into the model (runtime classes of subscripted typing aliases,
`_name` attributes, `__module__` attributes) are noted where they are used.
-/

/-! ## A tiny regex engine for the fragment used by `remove_modules`

`TypenamesConfig.remove_modules_patterns` (src/typenames.py lines 88-96)
compiles each plain-string entry `module` to the Python pattern
`"^{}\\.".format(module.replace(".", "\\."))`, i.e. an anchored literal
followed by a literal dot.  The library's own pre-compiled entries are
`^collections\.(abc\.)?` (in `DEFAULT_REMOVE_MODULES`) and `^(<?\w+>?\.)+`
(`REMOVE_ALL_MODULES`).  The fragment therefore needs: literal characters,
`\w`, concatenation, greedy `?` and greedy `+`.  All patterns are anchored at
the start of the string, so `pattern.sub("", s)` removes at most one match,
located at position 0. -/

/-- The character class `\w` of Python's `re` (ASCII letters, digits, and the
underscore; the strings trimmed here are identifier paths, so the full Unicode
word class is not needed). -/
def isWordChar (c : Char) : Bool := c.isAlphanum || c = '_'

/-- Abstract syntax of the regex fragment used by the library's trimming
patterns.  The start anchor `^` is implicit: matching always begins at the
start of the input. -/
inductive Rx where
  | eps
  | lit (c : Char)
  | wordChar
  | seq (a b : Rx)
  | opt (a : Rx)
  | plusGreedy (a : Rx)
  deriving DecidableEq, Repr

/-- Backtracking matcher.  `Rx.matchEnds fuel r l` returns the list of
possible remainders of `l` after matching `r` at its start, in the priority
order in which Python's backtracking engine would try them (greedy
alternatives first); the overall match chosen by `re` corresponds to the head
of this list.  The recursion is structural on `fuel`, one unit per unfolding;
`(l.length + 1) * (sizeOf r + 1)` units are always sufficient for the
patterns used here, whose `+` bodies consume at least one character per
iteration. -/
def Rx.matchEnds : Nat → Rx → List Char → List (List Char)
  | 0, _, _ => []
  | _ + 1, .eps, l => [l]
  | _ + 1, .lit _, [] => []
  | _ + 1, .lit c, x :: xs => if x = c then [xs] else []
  | _ + 1, .wordChar, [] => []
  | _ + 1, .wordChar, x :: xs => if isWordChar x then [xs] else []
  | fuel + 1, .seq a b, l => (Rx.matchEnds fuel a l).flatMap (Rx.matchEnds fuel b)
  | fuel + 1, .opt a, l => Rx.matchEnds fuel a l ++ [l]
  | fuel + 1, .plusGreedy a, l =>
      (Rx.matchEnds fuel a l).flatMap
        (fun r => Rx.matchEnds fuel (.plusGreedy a) r ++ [r])

/-- Structural size of a pattern, used only to supply the matcher's fuel. -/
def Rx.size : Rx → Nat
  | .eps => 1
  | .lit _ => 1
  | .wordChar => 1
  | .seq a b => a.size + b.size + 1
  | .opt a => a.size + 1
  | .plusGreedy a => a.size + 1

/-- `pattern.sub("", s)` for an anchored pattern, on the character list of the
string: if the pattern matches at position 0, the (preferred, i.e. greedy)
match is deleted and the remainder returned; otherwise the input is returned
unchanged.  An anchored pattern cannot match at any later position, so at most
one substitution happens. -/
def Rx.subAnchoredL (r : Rx) (l : List Char) : List Char :=
  match Rx.matchEnds ((l.length + 1) * (r.size + 1)) r l with
  | [] => l
  | e :: _ => e

/-- `pattern.sub("", s)` on strings. -/
def Rx.subAnchored (r : Rx) (s : String) : String :=
  String.mk (Rx.subAnchoredL r s.data)

/-- A sequence of literal characters (each character of a module name is
matched literally: the only regex metacharacter appearing in a module name is
the dot, and the compilation step escapes every dot). -/
def litSeq : List Char → Rx
  | [] => .eps
  | c :: cs => .seq (.lit c) (litSeq cs)

/-- Compilation of a plain-string `remove_modules` entry, from
`re.compile(r"^{}\.".format(module.replace(".", r"\.")))`
(src/typenames.py line 96): the module name with dots escaped, followed by an
escaped dot, anchored at the start.  Faithful for entries built from module
names (word characters and dots); an entry containing other regex
metacharacters would not compile to a literal sequence. -/
def compiledPlain (m : String) : Rx := litSeq (m ++ ".").data

/-- The pre-compiled pattern `^collections\.(abc\.)?` from
`DEFAULT_REMOVE_MODULES` (src/typenames.py line 60). -/
def collectionsRx : Rx := .seq (litSeq "collections.".data) (.opt (litSeq "abc.".data))

/-- The pre-compiled pattern `^(<?\w+>?\.)+` that is the sole entry of
`REMOVE_ALL_MODULES` (src/typenames.py line 68). -/
def removeAllRx : Rx :=
  .plusGreedy (.seq (.opt (.lit '<')) (.seq (.plusGreedy .wordChar) (.seq (.opt (.lit '>')) (.lit '.'))))

/-! ## Remove-modules rules and the configuration dataclass -/

/-- One entry of the `remove_modules` list: either a plain string (compiled on
use by `remove_modules_patterns`) or an already compiled `re.Pattern`.  All
pre-compiled patterns the library ships are anchored at `^`, which
`Rx.subAnchored` assumes. -/
inductive RemoveModuleRule where
  | plain (m : String)
  | compiled (r : Rx)
  deriving DecidableEq, Repr

/-- `DEFAULT_REMOVE_MODULES` (src/typenames.py lines 57-65). -/
def DEFAULT_REMOVE_MODULES : List RemoveModuleRule :=
  [.plain "__main__", .plain "builtins", .compiled collectionsRx,
   .plain "contextlib", .plain "re", .plain "types", .plain "typing"]

/-- `REMOVE_ALL_MODULES` (src/typenames.py line 68). -/
def REMOVE_ALL_MODULES : List RemoveModuleRule := [.compiled removeAllRx]

/-- `UnionSyntax` (src/typenames.py lines 30-35).  The Lean identifiers use
`Style` in place of the source's `Syntax` suffix. -/
inductive UnionStyle where
  | as_given
  | or_operator
  | special_form
  deriving DecidableEq, Repr

/-- `OptionalSyntax` (src/typenames.py lines 38-45). -/
inductive OptionalStyle where
  | as_given
  | or_operator
  | optional_special_form
  | union_special_form
  deriving DecidableEq, Repr

/-- `StandardCollectionSyntax` (src/typenames.py lines 48-54). -/
inductive StandardCollectionStyle where
  | as_given
  | standard_class
  | typing_module
  deriving DecidableEq, Repr

/-- The `value` of each member of the string-valued enum `UnionSyntax`. -/
def UnionStyle.value : UnionStyle → String
  | .as_given => "as_given"
  | .or_operator => "or_operator"
  | .special_form => "special_form"

/-- `UnionSyntax(value)`: a string is accepted exactly when it is the value of
a member (the enum call raises `ValueError` otherwise). -/
def UnionStyle.ofValue? (s : String) : Option UnionStyle :=
  if s = "as_given" then some .as_given
  else if s = "or_operator" then some .or_operator
  else if s = "special_form" then some .special_form
  else none

/-- The `value` of each member of `OptionalSyntax`. -/
def OptionalStyle.value : OptionalStyle → String
  | .as_given => "as_given"
  | .or_operator => "or_operator"
  | .optional_special_form => "optional_special_form"
  | .union_special_form => "union_special_form"

/-- `OptionalSyntax(value)`. -/
def OptionalStyle.ofValue? (s : String) : Option OptionalStyle :=
  if s = "as_given" then some .as_given
  else if s = "or_operator" then some .or_operator
  else if s = "optional_special_form" then some .optional_special_form
  else if s = "union_special_form" then some .union_special_form
  else none

/-- The `value` of each member of `StandardCollectionSyntax`. -/
def StandardCollectionStyle.value : StandardCollectionStyle → String
  | .as_given => "as_given"
  | .standard_class => "standard_class"
  | .typing_module => "typing_module"

/-- `StandardCollectionSyntax(value)`. -/
def StandardCollectionStyle.ofValue? (s : String) : Option StandardCollectionStyle :=
  if s = "as_given" then some .as_given
  else if s = "standard_class" then some .standard_class
  else if s = "typing_module" then some .typing_module
  else none

/-- `TypenamesConfig` (src/typenames.py lines 71-96) after `__post_init__`
validation: the three syntax-choice fields hold enumeration members.  Field
names use `Style` for the source's `syntax` and `removeModules` for
`remove_modules`. -/
structure TypenamesConfig where
  unionStyle : UnionStyle := .as_given
  optionalStyle : OptionalStyle := .as_given
  collectionStyle : StandardCollectionStyle := .as_given
  removeModules : List RemoveModuleRule := DEFAULT_REMOVE_MODULES
  deriving DecidableEq, Repr

/-- A fresh `TypenamesConfig()` with every option left at its default. -/
def defaultConfig : TypenamesConfig := {}

/-- One step of rule compilation inside the `remove_modules_patterns`
generator (src/typenames.py lines 92-96): an `re.Pattern` entry is yielded as
is, a plain string entry is compiled. -/
def ruleToRx : RemoveModuleRule → Rx
  | .plain m => compiledPlain m
  | .compiled r => r

/-- The `remove_modules_patterns` property (src/typenames.py lines 88-96). -/
def removeModulesPatterns (config : TypenamesConfig) : List Rx :=
  config.removeModules.map ruleToRx

/-- The trimming loop shared by `BaseNode.process_module_prefix`
(src/typenames.py lines 116-122) and the `type_name` loop of
`TypeNode.__str__` (lines 158-159): every compiled pattern is applied in list
order, each by `pattern.sub("", s)`. -/
def stripModules (config : TypenamesConfig) (s : String) : String :=
  (removeModulesPatterns config).foldl (fun acc p => Rx.subAnchored p acc) s

example : stripModules defaultConfig "typing." = "" := by decide
example : stripModules defaultConfig "collections.abc.Callable" = "Callable" := by decide
example : stripModules defaultConfig "other_module.X" = "other_module.X" := by decide
example : stripModules { removeModules := REMOVE_ALL_MODULES } "a.b.<locals>.c." = "" := by decide

/-! ## The runtime model of type-annotation values

`PyExpr` models the values the library inspects.  The constructors preserve
exactly the correlations CPython guarantees between a value's `get_origin`
result and its runtime class (`type(x)`):

* a `typing.Union[...]`/`typing.Optional[...]` value (`specialUnion`) has
  origin `typing.Union` and runtime class `typing._UnionGenericAlias`, never
  exactly `typing._GenericAlias`;
* a PEP 604 union `a | b` (`orUnion`) is the only kind of value whose runtime
  class is `types.UnionType`, and its origin is the class `types.UnionType`;
* any other parameterized generic (`genericAlias`) has a class-like origin
  and one of the alias runtime classes of `PyAliasRepr`.
-/

/-- A class-like origin as returned by `typing.get_origin`: its `__module__`
and `__qualname__` (every Python class carries both), its `__name__` when
present, and its `_name` when present (the fallbacks used by the final branch
of `GenericNode.__str__`, src/typenames.py lines 266-273). -/
structure PyClassOrigin where
  module : String
  qualname : String
  pyName : Option String
  tName : Option String
  deriving DecidableEq, Repr

/-- The runtime class (`type(x)`) of a parameterized alias that is not a PEP
604 union.  `typingGenericAlias` is exactly `typing._GenericAlias`; on
CPython 3.9+ a subscripted `typing.Callable` instead has the proper subclass
`typing._CallableGenericAlias` (distinguished because the predicates test
with `is`, i.e. class identity, src/typenames.py lines 449 and 458);
`builtinGenericAlias` is `types.GenericAlias` (e.g. `dict[str, int]`);
`abcCallableGenericAlias` is `collections.abc._CallableGenericAlias`
(subscripted `collections.abc.Callable`). -/
inductive PyAliasRepr where
  | typingGenericAlias
  | typingCallableGenericAlias
  | builtinGenericAlias
  | abcCallableGenericAlias
  | otherAliasClass
  deriving DecidableEq, Repr

/-- Runtime type-annotation values. -/
inductive PyExpr where
  | classObj (module : Option String) (qualname : String)
  | noneTypeObj
  | ellipsisObj
  | anyObj
  | forwardRef (arg : String)
  | specialUnion (args : List PyExpr)
  | orUnion (args : List PyExpr)
  | genericAlias (origin : PyClassOrigin) (reprCls : PyAliasRepr)
      (tName : Option String) (args : List PyExpr)
  | paramsList (args : List PyExpr)
  | litInt (n : Int)
  | litStr (s : String)
  | litBytes (s : String)
  | litBool (b : Bool)
  | litEnum (clsName memberName : String)
  | litNone

/-- The possible results of `typing.get_origin`: the `typing.Union` special
form (for `specialUnion` values), the class `types.UnionType` (for PEP 604
unions), or an ordinary class-like head. -/
inductive PyOriginVal where
  | typingUnion
  | unionTypeClass
  | classOrigin (c : PyClassOrigin)
  deriving DecidableEq, Repr

/-- `typing.get_origin` on the model. -/
def get_origin : PyExpr → Option PyOriginVal
  | .specialUnion _ => some .typingUnion
  | .orUnion _ => some .unionTypeClass
  | .genericAlias o _ _ _ => some (.classOrigin o)
  | _ => none

/-- `typing.get_args` on the model (only consulted when the origin exists). -/
def get_args : PyExpr → List PyExpr
  | .specialUnion args => args
  | .orUnion args => args
  | .genericAlias _ _ _ args => args
  | _ => []

/-- `tp is type(None)`: identity with the `NoneType` class. -/
def tpIsNoneType : PyExpr → Bool
  | .noneTypeObj => true
  | _ => false

/-- `type(tp) is typing._GenericAlias` (exact class identity; subclasses such
as `typing._UnionGenericAlias` and `typing._CallableGenericAlias` fail this
test). -/
def typeIsTypingGenericAlias : PyExpr → Bool
  | .genericAlias _ .typingGenericAlias _ _ => true
  | _ => false

/-- `isinstance(tp, types.UnionType)`: PEP 604 union values are the only
instances of `types.UnionType`. -/
def isInstanceUnionType : PyExpr → Bool
  | .orUnion _ => true
  | _ => false

/-- `OR_OPERATOR_SUPPORTED` (src/typenames.py line 20): the model is of
CPython 3.10+, where PEP 604 is available. -/
def OR_OPERATOR_SUPPORTED : Bool := true

/-- `STANDARD_COLLECTION_TO_TYPING_ALIAS_MAPPING` (src/typenames.py lines
388-433), with each standard collection class identified by its
`(__module__, __qualname__)` pair and each typing alias represented by its
`_name` attribute (the only attribute of the alias that
`GenericNode.__str__` reads, line 253); the `_name` values are the alias
attribute values on the host runtime. -/
def STANDARD_COLLECTION_TO_TYPING_ALIAS_MAPPING : List ((String × String) × String) :=
  [(("builtins", "dict"), "Dict"),
   (("builtins", "list"), "List"),
   (("builtins", "set"), "Set"),
   (("builtins", "frozenset"), "FrozenSet"),
   (("builtins", "tuple"), "Tuple"),
   (("collections", "defaultdict"), "DefaultDict"),
   (("collections", "OrderedDict"), "OrderedDict"),
   (("collections", "ChainMap"), "ChainMap"),
   (("collections", "Counter"), "Counter"),
   (("collections", "deque"), "Deque"),
   (("collections.abc", "Awaitable"), "Awaitable"),
   (("collections.abc", "Coroutine"), "Coroutine"),
   (("collections.abc", "AsyncIterable"), "AsyncIterable"),
   (("collections.abc", "AsyncIterator"), "AsyncIterator"),
   (("collections.abc", "AsyncGenerator"), "AsyncGenerator"),
   (("collections.abc", "Iterable"), "Iterable"),
   (("collections.abc", "Iterator"), "Iterator"),
   (("collections.abc", "Generator"), "Generator"),
   (("collections.abc", "Reversible"), "Reversible"),
   (("collections.abc", "Collection"), "Collection"),
   (("collections.abc", "Container"), "Container"),
   (("collections.abc", "Callable"), "Callable"),
   (("collections.abc", "Set"), "AbstractSet"),
   (("collections.abc", "MutableSet"), "MutableSet"),
   (("collections.abc", "Mapping"), "Mapping"),
   (("collections.abc", "MutableMapping"), "MutableMapping"),
   (("collections.abc", "Sequence"), "Sequence"),
   (("collections.abc", "MutableSequence"), "MutableSequence"),
   (("collections.abc", "ByteString"), "ByteString"),
   (("collections.abc", "MappingView"), "MappingView"),
   (("collections.abc", "KeysView"), "KeysView"),
   (("collections.abc", "ItemsView"), "ItemsView"),
   (("collections.abc", "ValuesView"), "ValuesView"),
   (("contextlib", "AbstractContextManager"), "ContextManager"),
   (("contextlib", "AbstractAsyncContextManager"), "AsyncContextManager"),
   (("re", "Pattern"), "Pattern"),
   (("re", "Match"), "Match")]

/-- Lookup in the mapping by class identity (module and qualified name). -/
def lookupTypingAlias (module qualname : String) : Option String :=
  (STANDARD_COLLECTION_TO_TYPING_ALIAS_MAPPING.find?
    (fun e => e.1.1 = module && e.1.2 = qualname)).map (fun e => e.2)

/-- `get_origin(tp) in STANDARD_COLLECTION_CLASSES`, where
`STANDARD_COLLECTION_CLASSES` is the key set of the mapping
(src/typenames.py lines 437-439). -/
def originInStandardCollections (tp : PyExpr) : Bool :=
  match get_origin tp with
  | some (.classOrigin c) => (lookupTypingAlias c.module c.qualname).isSome
  | _ => false

/-- `is_union_special_form` (src/typenames.py lines 378-380):
`get_origin(tp) is typing.Union`. -/
def is_union_special_form (tp : PyExpr) : Bool :=
  match get_origin tp with
  | some .typingUnion => true
  | _ => false

/-- `is_union_or_operator` (src/typenames.py lines 383-385). -/
def is_union_or_operator (tp : PyExpr) : Bool :=
  OR_OPERATOR_SUPPORTED && isInstanceUnionType tp

/-- `is_standard_collection_type_alias` (src/typenames.py lines 444-450). -/
def is_standard_collection_type_alias (tp : PyExpr) : Bool :=
  originInStandardCollections tp && ! typeIsTypingGenericAlias tp

/-- `is_typing_module_collection_alias` (src/typenames.py lines 453-459). -/
def is_typing_module_collection_alias (tp : PyExpr) : Bool :=
  originInStandardCollections tp && typeIsTypingGenericAlias tp

/-! ## The node tree and `parse_type_tree` -/

/-- The node hierarchy (src/typenames.py lines 99-320): `TypeNode`,
`GenericNode`, `ParamsListNode`, `LiteralNode`, each holding the annotation
value `tp` and the active configuration. -/
inductive BaseNode where
  | typeNode (tp : PyExpr) (config : TypenamesConfig)
  | genericNode (tp : PyExpr) (origin : PyOriginVal) (argNodes : List BaseNode)
      (config : TypenamesConfig)
  | paramsListNode (tp : PyExpr) (argNodes : List BaseNode) (config : TypenamesConfig)
  | literalNode (tp : PyExpr) (config : TypenamesConfig)

/-- The `tp` field common to all node classes. -/
def BaseNode.tp : BaseNode → PyExpr
  | .typeNode t _ => t
  | .genericNode t _ _ _ => t
  | .paramsListNode t _ _ => t
  | .literalNode t _ => t

/-- `is_none_type`: true for a `TypeNode` whose `tp` is `NoneType`
(src/typenames.py lines 132-134), false for a `GenericNode` (lines 173-175).
`ParamsListNode` and `LiteralNode` raise `NotImplementedError` when queried;
the renderer only queries union members, which are never of those kinds, so
returning false is observationally equivalent at every reachable call. -/
def BaseNode.isNoneType : BaseNode → Bool
  | .typeNode .noneTypeObj _ => true
  | _ => false

mutual
/-- `parse_type_tree` (src/typenames.py lines 323-358), after the
configuration has been resolved: the branch order mirrors the source
(`get_origin` truthy, then `isinstance(tp, list)`, then the literal types,
else a `TypeNode` leaf).  The three `PyExpr` shapes with an origin are
exactly those for which `get_origin` is non-`None`.  The elements of a
parameter list are parsed with a freshly constructed default configuration
(`parse_type_tree(a)` with no `config` argument, line 353). -/
def parse_type_tree (tp : PyExpr) (config : TypenamesConfig) : BaseNode :=
  match tp with
  | .specialUnion args =>
      .genericNode (.specialUnion args) .typingUnion (parseArgList args config) config
  | .orUnion args =>
      .genericNode (.orUnion args) .unionTypeClass (parseArgList args config) config
  | .genericAlias o r nm args =>
      .genericNode (.genericAlias o r nm args) (.classOrigin o) (parseArgList args config) config
  | .paramsList elems => .paramsListNode (.paramsList elems) (parseArgListDefault elems) config
  | .litInt n => .literalNode (.litInt n) config
  | .litStr s => .literalNode (.litStr s) config
  | .litBytes s => .literalNode (.litBytes s) config
  | .litBool b => .literalNode (.litBool b) config
  | .litEnum c m => .literalNode (.litEnum c m) config
  | .litNone => .literalNode .litNone config
  | .classObj m q => .typeNode (.classObj m q) config
  | .noneTypeObj => .typeNode .noneTypeObj config
  | .ellipsisObj => .typeNode .ellipsisObj config
  | .anyObj => .typeNode .anyObj config
  | .forwardRef a => .typeNode (.forwardRef a) config

def parseArgList : List PyExpr → TypenamesConfig → List BaseNode
  | [], _ => []
  | a :: as, config => parse_type_tree a config :: parseArgList as config

def parseArgListDefault : List PyExpr → List BaseNode
  | [] => []
  | a :: as => parse_type_tree a defaultConfig :: parseArgListDefault as
end

/-! ## The stringifier -/

/-- `str.rpartition(".")` as used for forward references (src/typenames.py
lines 151-153): split before the last dot; the first component keeps the
trailing dot (`module + dot`). -/
def rpartitionDot (s : String) : String × String :=
  let nm := (s.data.reverse.takeWhile (fun c => c ≠ '.')).reverse
  (String.mk (s.data.take (s.data.length - nm.length)), String.mk nm)

/-- `TypeNode.__str__` (src/typenames.py lines 136-163).  Module attributes
are host-runtime facts baked into the model: `NoneType.__module__` is
`"builtins"`, `typing.Any.__module__` and a `ForwardRef`'s `__module__` are
`"typing"`, while the `Ellipsis` object has no `__module__` attribute.  The
remaining `PyExpr` shapes never reach `TypeNode` (they parse to other node
kinds) and render as their bare module prefix. -/
def renderTypeNode (tp : PyExpr) (config : TypenamesConfig) : String :=
  let modulePre : String :=
    match tp with
    | .classObj (some m) _ => m ++ "."
    | .classObj none _ => ""
    | .noneTypeObj => "builtins."
    | .anyObj => "typing."
    | .forwardRef _ => "typing."
    | _ => ""
  let pair : String × String :=
    match tp with
    | .ellipsisObj => (modulePre, "...")
    | .noneTypeObj => (modulePre, "None")
    | .anyObj => (modulePre, "Any")
    | .forwardRef arg =>
        if arg.data.contains '.' then rpartitionDot arg else (modulePre, arg)
    | .classObj _ q => (modulePre, q)
    | _ => (modulePre, "")
  stripModules config pair.1 ++ stripModules config pair.2

/-- `LiteralNode.__str__` (src/typenames.py lines 316-320): an enum member
renders as `ClassName.MEMBER`; every other literal renders as its `repr`
(quotes written with the escape for the apostrophe character). -/
def renderLiteralNode : PyExpr → String
  | .litEnum c m => c ++ "." ++ m
  | .litInt n => toString n
  | .litStr s => "'" ++ s ++ "'"
  | .litBytes s => "b'" ++ s ++ "'"
  | .litBool b => if b then "True" else "False"
  | .litNone => "None"
  | _ => ""

/-- `self.origin.__module__ + "."` for a `GenericNode`'s origin. -/
def originModuleDot : PyOriginVal → String
  | .classOrigin c => c.module ++ "."
  | .typingUnion => "typing."
  | .unionTypeClass => "types."

/-- `self.origin.__qualname__` for a `GenericNode`'s origin. -/
def originQualnameOf : PyOriginVal → String
  | .classOrigin c => c.qualname
  | .typingUnion => "Union"
  | .unionTypeClass => "UnionType"

/-- `getattr(self.origin, "__name__", getattr(self.origin, "_name",
str(self.origin)))` (src/typenames.py lines 271-273); the final `str(origin)`
fallback is approximated by the dotted path (no claim exercises it). -/
def otherOriginName : PyOriginVal → String
  | .classOrigin c =>
      match c.pyName with
      | some n => n
      | none =>
          match c.tName with
          | some n => n
          | none => c.module ++ "." ++ c.qualname
  | .typingUnion => "Union"
  | .unionTypeClass => "UnionType"

/-- `STANDARD_COLLECTION_TO_TYPING_ALIAS_MAPPING[get_origin(self.tp)]._name`
(src/typenames.py lines 249-253).  Callers are guarded by
`is_standard_collection_type_alias`, under which the lookup succeeds (Python
would raise `KeyError` otherwise). -/
def typingAliasNameFor (tp : PyExpr) : String :=
  match get_origin tp with
  | some (.classOrigin c) => (lookupTypingAlias c.module c.qualname).getD ""
  | _ => ""

/-- `self.tp._name` (src/typenames.py line 264).  A subscripted alias whose
`_name` is the `None` object would be interpolated by the f-string as the
text `"None"`. -/
def tpUnderscoreName : PyExpr → String
  | .genericAlias _ _ (some n) _ => n
  | .genericAlias _ _ none _ => "None"
  | _ => ""

/-- The common tail of `GenericNode.__str__` (src/typenames.py lines
276-279): trim the head's module prefix (the origin name itself is not
trimmed), then wrap the comma-joined argument strings. -/
def wrapHead (config : TypenamesConfig) (modulePre headName : String)
    (argStrs : List String) : String :=
  stripModules config modulePre ++ headName ++ "[" ++ String.intercalate ", " argStrs ++ "]"

mutual
/-- Node weight: the number of nodes in a tree, ignoring the `tp` and
`config` payloads.  Used as fuel for the renderer: rendering recurses into
children and, in the `Optional` re-wrap case, into a synthesized union node
over a strict subset of the children, so the weight strictly decreases along
every recursive call. -/
def nodeWeight : BaseNode → Nat
  | .typeNode _ _ => 1
  | .literalNode _ _ => 1
  | .genericNode _ _ argNodes _ => nodeWeightL argNodes + 1
  | .paramsListNode _ argNodes _ => nodeWeightL argNodes + 1

def nodeWeightL : List BaseNode → Nat
  | [] => 0
  | a :: as => nodeWeight a + nodeWeightL as
end

/-- The recursive stringifier, fuel-indexed (structural recursion on fuel;
`renderNode` supplies `nodeWeight`, which is always sufficient).  The
`genericNode` case is `GenericNode.__str__` (src/typenames.py lines
177-279), with the branches in source order:

1. special-form union, optional (any child `is_none_type`): `or_operator`
   joins with `" | "` and returns; `union_special_form` wraps all children in
   `Union`; otherwise the `NoneType` children are dropped and the rest
   wrapped in `Optional`, re-wrapped in a synthesized union node when more
   than one remains (lines 193-205; the synthesized node's `tp` is
   `typing.Union[...]` over the kept children's `tp`s, so it renders through
   the special-form-union branch);
2. special-form union, non-optional;
3. PEP 604 union (lines 215-245), with the analogous optional handling;
4. standard-collection alias (lines 247-256);
5. typing-module collection alias (lines 258-264);
6. any other generic (lines 266-273). -/
def renderNodeF : Nat → BaseNode → String
  | 0, _ => ""
  | _ + 1, .typeNode tp config => renderTypeNode tp config
  | _ + 1, .literalNode tp _ => renderLiteralNode tp
  | fuel + 1, .paramsListNode _ argNodes _ =>
      "[" ++ String.intercalate ", " (argNodes.map (renderNodeF fuel)) ++ "]"
  | fuel + 1, .genericNode tp origin argNodes config =>
      if is_union_special_form tp then
        if argNodes.any BaseNode.isNoneType then
          if config.optionalStyle = .or_operator then
            String.intercalate " | " (argNodes.map (renderNodeF fuel))
          else if config.optionalStyle = .union_special_form then
            wrapHead config "typing." "Union" (argNodes.map (renderNodeF fuel))
          else
            if (argNodes.filter (fun a => ! tpIsNoneType a.tp)).length > 1 then
              wrapHead config "typing." "Optional"
                [renderNodeF fuel
                  (.genericNode
                    (.specialUnion ((argNodes.filter (fun a => ! tpIsNoneType a.tp)).map
                      BaseNode.tp))
                    .typingUnion (argNodes.filter (fun a => ! tpIsNoneType a.tp)) config)]
            else
              wrapHead config "typing." "Optional"
                ((argNodes.filter (fun a => ! tpIsNoneType a.tp)).map (renderNodeF fuel))
        else
          if config.unionStyle = .or_operator then
            String.intercalate " | " (argNodes.map (renderNodeF fuel))
          else
            wrapHead config "typing." "Union" (argNodes.map (renderNodeF fuel))
      else if is_union_or_operator tp then
        if argNodes.any BaseNode.isNoneType ∧ config.optionalStyle = .optional_special_form then
          if (argNodes.filter (fun a => ! tpIsNoneType a.tp)).length > 1 then
            wrapHead config "typing." "Optional"
              [renderNodeF fuel
                (.genericNode
                  (.specialUnion ((argNodes.filter (fun a => ! tpIsNoneType a.tp)).map
                    BaseNode.tp))
                  .typingUnion (argNodes.filter (fun a => ! tpIsNoneType a.tp)) config)]
          else
            wrapHead config "typing." "Optional"
              ((argNodes.filter (fun a => ! tpIsNoneType a.tp)).map (renderNodeF fuel))
        else if argNodes.any BaseNode.isNoneType ∧ config.optionalStyle = .union_special_form then
          wrapHead config "typing." "Union" (argNodes.map (renderNodeF fuel))
        else
          if config.unionStyle = .special_form then
            wrapHead config "typing." "Union" (argNodes.map (renderNodeF fuel))
          else
            String.intercalate " | " (argNodes.map (renderNodeF fuel))
      else if is_standard_collection_type_alias tp then
        if config.collectionStyle = .typing_module then
          wrapHead config "typing." (typingAliasNameFor tp) (argNodes.map (renderNodeF fuel))
        else
          wrapHead config (originModuleDot origin) (originQualnameOf origin)
            (argNodes.map (renderNodeF fuel))
      else if is_typing_module_collection_alias tp then
        if config.collectionStyle = .standard_class then
          wrapHead config (originModuleDot origin) (originQualnameOf origin)
            (argNodes.map (renderNodeF fuel))
        else
          wrapHead config "typing." (tpUnderscoreName tp) (argNodes.map (renderNodeF fuel))
      else
        wrapHead config (originModuleDot origin) (otherOriginName origin)
          (argNodes.map (renderNodeF fuel))

/-- `str(node)`. -/
def renderNode (n : BaseNode) : String := renderNodeF (nodeWeight n) n

/-- `typenames` (src/typenames.py lines 361-375), after configuration
resolution: parse, then stringify. -/
def typenames (tp : PyExpr) (config : TypenamesConfig) : String :=
  renderNode (parse_type_tree tp config)

/-- `int` as a runtime class. -/
def intObj : PyExpr := .classObj (some "builtins") "int"

/-- `str` as a runtime class. -/
def strObj : PyExpr := .classObj (some "builtins") "str"

example : typenames (.specialUnion [intObj, .noneTypeObj]) defaultConfig = "Optional[int]" := by
  decide
example :
    typenames (.specialUnion [intObj, strObj, .noneTypeObj]) defaultConfig
      = "Optional[Union[int, str]]" := by decide
example :
    typenames (.orUnion [intObj, .noneTypeObj]) defaultConfig = "int | None" := by decide
example :
    typenames (.genericAlias ⟨"builtins", "dict", some "dict", none⟩ .builtinGenericAlias none
      [strObj, intObj]) defaultConfig = "dict[str, int]" := by decide
example :
    typenames (.genericAlias ⟨"builtins", "dict", some "dict", none⟩ .typingGenericAlias
      (some "Dict") [strObj, intObj]) defaultConfig = "Dict[str, int]" := by decide

/-! ## Configuration construction, validation and the entry points

`TypenamesConfig.__post_init__` (src/typenames.py lines 83-86) passes each of
the three syntax-choice fields through its enum constructor, which raises
`ValueError` for a value outside the enumeration.  `parse_type_tree` /
`typenames` (lines 336-339) resolve the configuration *before* any node is
built: `TypenamesConfig(**kwargs)` when no config is given, else
`dataclasses.replace(config, **kwargs)` — which builds a new object (running
`__post_init__` on it) and leaves the caller's object untouched. -/

/-- The raw field values handed to `TypenamesConfig(...)` before
`__post_init__` runs (the string-valued enums accept their value strings). -/
structure RawConfig where
  unionStyle : String := "as_given"
  optionalStyle : String := "as_given"
  collectionStyle : String := "as_given"
  removeModules : List RemoveModuleRule := DEFAULT_REMOVE_MODULES
  deriving DecidableEq, Repr

/-- `TypenamesConfig(...)` including `__post_init__`: each syntax field is
validated in declaration order; the first invalid one raises
`ValueError: '<value>' is not a valid <EnumName>`. -/
def mkConfig (raw : RawConfig) : Except String TypenamesConfig :=
  match UnionStyle.ofValue? raw.unionStyle with
  | none => .error ("'" ++ raw.unionStyle ++ "' is not a valid UnionSyntax")
  | some us =>
    match OptionalStyle.ofValue? raw.optionalStyle with
    | none => .error ("'" ++ raw.optionalStyle ++ "' is not a valid OptionalSyntax")
    | some os =>
      match StandardCollectionStyle.ofValue? raw.collectionStyle with
      | none =>
          .error ("'" ++ raw.collectionStyle ++ "' is not a valid StandardCollectionSyntax")
      | some cs => .ok ⟨us, os, cs, raw.removeModules⟩

/-- The keyword overrides accepted by `typenames` / `parse_type_tree`. -/
structure ConfigOverrides where
  unionStyle : Option String := none
  optionalStyle : Option String := none
  collectionStyle : Option String := none
  removeModules : Option (List RemoveModuleRule) := none
  deriving DecidableEq, Repr

/-- `TypenamesConfig(**kwargs)`: absent keywords fall back to the dataclass
field defaults. -/
def rawOfOverrides (ov : ConfigOverrides) : RawConfig :=
  { unionStyle := ov.unionStyle.getD "as_given",
    optionalStyle := ov.optionalStyle.getD "as_given",
    collectionStyle := ov.collectionStyle.getD "as_given",
    removeModules := ov.removeModules.getD DEFAULT_REMOVE_MODULES }

/-- `dataclasses.replace(config, **kwargs)`: a new object is constructed from
the existing field values with the keyword overrides applied, and
`__post_init__` runs on the new object (an existing enum member passes back
through its constructor unchanged, modelled by its value string). -/
def replaceConfig (config : TypenamesConfig) (ov : ConfigOverrides) :
    Except String TypenamesConfig :=
  mkConfig
    { unionStyle := ov.unionStyle.getD (UnionStyle.value config.unionStyle),
      optionalStyle := ov.optionalStyle.getD (OptionalStyle.value config.optionalStyle),
      collectionStyle :=
        ov.collectionStyle.getD (StandardCollectionStyle.value config.collectionStyle),
      removeModules := ov.removeModules.getD config.removeModules }

/-- Configuration resolution shared by the two entry points
(src/typenames.py lines 336-339). -/
def resolveConfig (config : Option TypenamesConfig) (ov : ConfigOverrides) :
    Except String TypenamesConfig :=
  match config with
  | none => mkConfig (rawOfOverrides ov)
  | some c => replaceConfig c ov

/-- The public `parse_type_tree(tp, config=None, **kwargs)` entry point. -/
def parse_type_tree_entry (tp : PyExpr) (config : Option TypenamesConfig)
    (ov : ConfigOverrides) : Except String BaseNode :=
  match resolveConfig config ov with
  | .error e => .error e
  | .ok c => .ok (parse_type_tree tp c)

/-- The public `typenames(tp, config=None, **kwargs)` entry point. -/
def typenames_entry (tp : PyExpr) (config : Option TypenamesConfig)
    (ov : ConfigOverrides) : Except String String :=
  match parse_type_tree_entry tp config ov with
  | .error e => .error e
  | .ok node => .ok (renderNode node)

/-! ### A store of configuration objects

Python configurations are heap objects the caller can alias.  To state frame
properties (claim C9) the entry point is also modelled against an explicit
store of configuration cells: the caller passes a reference,
`dataclasses.replace` allocates a *new* cell, and — as in the source, which
only ever reads configuration attributes — no existing cell is written. -/

structure ConfigStore where
  cells : List TypenamesConfig
  deriving Repr

/-- Dereference a configuration cell. -/
def storeGet (st : ConfigStore) (ref : Nat) : Option TypenamesConfig := st.cells[ref]?

/-- `parse_type_tree(tp, config=<cell ref>, **kwargs)` against the store:
reads the caller's cell, allocates the replaced copy as a fresh cell and
parses with the copy's value.  Returns the updated store, and on success the
root node together with the fresh cell's reference. -/
def parse_type_tree_store (st : ConfigStore) (tp : PyExpr) (ref : Nat)
    (ov : ConfigOverrides) : ConfigStore × Except String (BaseNode × Nat) :=
  match storeGet st ref with
  | none => (st, .error "invalid configuration reference")
  | some config =>
    match replaceConfig config ov with
    | .error e => (st, .error e)
    | .ok c => (⟨st.cells ++ [c]⟩, .ok (parse_type_tree tp c, st.cells.length))

/-! ## Properties of the compiled plain-string trimming rules -/

/-- A literal-sequence pattern matches exactly when it is a prefix of the
input, with the unique remainder obtained by dropping it. -/
theorem matchEnds_litSeq (cs : List Char) (fuel : Nat) (l : List Char)
    (h : cs.length < fuel) :
    Rx.matchEnds fuel (litSeq cs) l
      = if cs.isPrefixOf l then [l.drop cs.length] else [] := by
  induction cs generalizing fuel l with
  | nil =>
      cases fuel with
      | zero => omega
      | succ f => simp [litSeq, Rx.matchEnds, List.isPrefixOf]
  | cons c cs ih =>
      cases fuel with
      | zero => omega
      | succ f =>
        cases f with
        | zero => simp at h
        | succ g =>
          cases l with
          | nil => simp [litSeq, Rx.matchEnds, List.isPrefixOf]
          | cons x xs =>
            have hg : cs.length < g + 1 := by simpa using Nat.lt_of_succ_lt_succ h
            by_cases hx : x = c
            · subst hx
              simp [litSeq, Rx.matchEnds, List.isPrefixOf, ih (g + 1) xs hg,
                List.drop_succ_cons]
            · have hbe : (c == x) = false := beq_eq_false_iff_ne.mpr (fun hcx => hx hcx.symm)
              simp [litSeq, Rx.matchEnds, List.isPrefixOf, hx, hbe]

/-- The size of a literal-sequence pattern. -/
theorem litSeq_size (cs : List Char) : (litSeq cs).size = 2 * cs.length + 1 := by
  induction cs with
  | nil => rfl
  | cons c cs ih => simp [litSeq, Rx.size, ih]; omega

/-- Substitution by a literal-sequence pattern strips it as a prefix when
present and does nothing otherwise. -/
theorem subAnchoredL_litSeq (cs l : List Char) :
    Rx.subAnchoredL (litSeq cs) l = if cs.isPrefixOf l then l.drop cs.length else l := by
  have hfuel : cs.length < (l.length + 1) * ((litSeq cs).size + 1) := by
    rw [litSeq_size]
    nlinarith [Nat.zero_le l.length, Nat.zero_le cs.length]
  rw [Rx.subAnchoredL, matchEnds_litSeq cs _ l hfuel]
  by_cases hp : cs.isPrefixOf l <;> simp [hp]

/-- The compiled form of a plain `remove_modules` entry `m` substitutes to:
drop the leading `m ++ "."` when the string starts with it, otherwise leave
the string unchanged. -/
theorem subAnchored_compiledPlain (m s : String) :
    Rx.subAnchored (compiledPlain m) s
      = if (m ++ ".").data.isPrefixOf s.data
        then String.mk (s.data.drop (m ++ ".").data.length) else s := by
  rw [Rx.subAnchored, compiledPlain, subAnchoredL_litSeq]
  by_cases hp : m.data ++ ['.'] <+: s.data
  · simp [List.isPrefixOf_iff_prefix, hp]
  · simp [List.isPrefixOf_iff_prefix, hp]

/-- `subAnchored_compiledPlain` with the prefix condition as a proposition. -/
theorem subAnchored_compiledPlain_prefix (m s : String) :
    Rx.subAnchored (compiledPlain m) s
      = if (m ++ ".").data <+: s.data
        then String.mk (s.data.drop (m.data.length + 1)) else s := by
  rw [subAnchored_compiledPlain]
  simp [List.isPrefixOf_iff_prefix]

/-- C10: a `remove_modules` entry given as a plain string `m` (a module name,
i.e. word characters and dots, the domain on which the dot-escaping
compilation yields a fully literal pattern) is compiled into an anchored
pattern, so applying it strips exactly a leading occurrence of `m ++ "."`
when the rendered name starts with it, and otherwise leaves the name
unchanged: it never removes a mid-string occurrence of the module name and
never matches without the trailing dot; a dotted entry matches only that
literal dotted path. -/
theorem C10_plain_rule_strips_exact_leading_module (m s : String)
    (hm : m.data.all (fun c => isWordChar c || c = '.') = true) :
    Rx.subAnchored (ruleToRx (.plain m)) s
      = if (m ++ ".").data.isPrefixOf s.data
        then String.mk (s.data.drop (m ++ ".").data.length) else s := by
  rw [ruleToRx]
  exact subAnchored_compiledPlain m s

/-- Witness for C10: the dotted module entry used in the repository's tests
strips its exact leading occurrence, does not touch a mid-string occurrence,
and does not fire on the bare module name without the trailing dot. -/
theorem C10_witness :
    Rx.subAnchored (ruleToRx (.plain "tests.test_typenames"))
        "tests.test_typenames.MyClass" = "MyClass"
    ∧ Rx.subAnchored (ruleToRx (.plain "tests.test_typenames"))
        "xtests.test_typenames.MyClass" = "xtests.test_typenames.MyClass"
    ∧ Rx.subAnchored (ruleToRx (.plain "tests.test_typenames"))
        "tests.test_typenames" = "tests.test_typenames" := by
  refine ⟨?_, ?_, ?_⟩
  · rw [C10_plain_rule_strips_exact_leading_module _ _ (by decide)]; decide
  · rw [C10_plain_rule_strips_exact_leading_module _ _ (by decide)]; decide
  · rw [C10_plain_rule_strips_exact_leading_module _ _ (by decide)]; decide

/-- C4 (counterexample): the trimming rules are applied in list order, each
stripping an anchored prefix, and stripping one module's prefix can expose
another rule's prefix; so permuting the rule list can change the result.
With rules for modules `a` and `b` (a permutation of each other) the string
`"a.b.c."` trims to `"c."` in one order but `"b.c."` in the other, and the
rendered output of a class from module `a.b` differs likewise. -/
theorem C4_counterexample :
    [RemoveModuleRule.plain "a", RemoveModuleRule.plain "b"].Perm
        [RemoveModuleRule.plain "b", RemoveModuleRule.plain "a"]
    ∧ stripModules { removeModules := [.plain "a", .plain "b"] } "a.b.c." = "c."
    ∧ stripModules { removeModules := [.plain "b", .plain "a"] } "a.b.c." = "b.c."
    ∧ typenames (.classObj (some "a.b") "C")
        { removeModules := [.plain "a", .plain "b"] } = "C"
    ∧ typenames (.classObj (some "a.b") "C")
        { removeModules := [.plain "b", .plain "a"] } = "b.C"
    ∧ stripModules { removeModules := [.plain "a", .plain "b"] } "a.b.c."
        ≠ stripModules { removeModules := [.plain "b", .plain "a"] } "a.b.c." := by
  refine ⟨by decide, by decide, by decide, by decide, by decide, by decide⟩

/-- C4 (amended): applying the name-trimming rules in the order of the
`remove_modules` list, each rule strips at most one anchored prefix, and the
result can depend on the order when one rule's stripped prefix exposes or
hides another rule's; the two orders of a pair of plain rules agree on every
string where no such interference is possible: neither compiled prefix is a
prefix of the other, and the string does not begin with either concatenation
of the two prefixes. -/
theorem C4_amended_order_insensitive (m₁ m₂ s : String)
    (h₁ : ¬ (m₁ ++ ".").data <+: (m₂ ++ ".").data)
    (h₂ : ¬ (m₂ ++ ".").data <+: (m₁ ++ ".").data)
    (h₃ : ¬ ((m₁ ++ ".") ++ (m₂ ++ ".")).data <+: s.data)
    (h₄ : ¬ ((m₂ ++ ".") ++ (m₁ ++ ".")).data <+: s.data) :
    stripModules { removeModules := [.plain m₁, .plain m₂] } s
      = stripModules { removeModules := [.plain m₂, .plain m₁] } s := by
  have key : ∀ (m : String) (l : List Char),
      Rx.subAnchoredL (compiledPlain m) l
        = if (m ++ ".").data <+: l then l.drop (m.data.length + 1) else l := by
    intro m l
    rw [compiledPlain, subAnchoredL_litSeq]
    simp [List.isPrefixOf_iff_prefix]
  suffices h : Rx.subAnchoredL (compiledPlain m₂) (Rx.subAnchoredL (compiledPlain m₁) s.data)
      = Rx.subAnchoredL (compiledPlain m₁) (Rx.subAnchoredL (compiledPlain m₂) s.data) by
    exact congrArg String.mk h
  by_cases hs₁ : (m₁ ++ ".").data <+: s.data
  · by_cases hs₂ : (m₂ ++ ".").data <+: s.data
    · rcases List.prefix_or_prefix_of_prefix hs₁ hs₂ with h | h
      · exact absurd h h₁
      · exact absurd h h₂
    · obtain ⟨t, ht⟩ := hs₁
      have hs₁ : (m₁ ++ ".").data <+: s.data := ⟨t, ht⟩
      have hd₁ : s.data.drop (m₁.data.length + 1) = t := by
        have hl : (m₁ ++ ".").data.length = m₁.data.length + 1 := by simp
        rw [← ht, ← hl, List.drop_left]
      have hnt : ¬ (m₂ ++ ".").data <+: t := by
        rintro ⟨u, hu⟩
        exact h₃ ⟨u, by rw [← ht, ← hu]; simp⟩
      rw [key m₁ s.data, if_pos hs₁, hd₁, key m₂ t, if_neg hnt,
        key m₂ s.data, if_neg hs₂, key m₁ s.data, if_pos hs₁, hd₁]
  · by_cases hs₂ : (m₂ ++ ".").data <+: s.data
    · obtain ⟨t, ht⟩ := hs₂
      have hs₂ : (m₂ ++ ".").data <+: s.data := ⟨t, ht⟩
      have hd₂ : s.data.drop (m₂.data.length + 1) = t := by
        have hl : (m₂ ++ ".").data.length = m₂.data.length + 1 := by simp
        rw [← ht, ← hl, List.drop_left]
      have hnt : ¬ (m₁ ++ ".").data <+: t := by
        rintro ⟨u, hu⟩
        exact h₄ ⟨u, by rw [← ht, ← hu]; simp⟩
      rw [key m₂ s.data, if_pos hs₂, hd₂, key m₁ t, if_neg hnt,
        key m₁ s.data, if_neg hs₁, key m₂ s.data, if_pos hs₂, hd₂]
    · rw [key m₁ s.data, if_neg hs₁, key m₂ s.data, if_neg hs₂,
        key m₁ s.data, if_neg hs₁]

/-- Witness for the amended C4 at non-interfering rules. -/
theorem C4_amended_witness :
    stripModules { removeModules := [.plain "foo", .plain "bar"] } "foo.x"
      = stripModules { removeModules := [.plain "bar", .plain "foo"] } "foo.x" :=
  C4_amended_order_insensitive "foo" "bar" "foo.x" (by decide) (by decide) (by decide)
    (by decide)

/-- C6: for every type-annotation value, at most one of the four
classification predicates is true (the implicit fifth case, an ordinary
generic, covers everything else). -/
theorem C6_predicates_mutually_exclusive (tp : PyExpr) :
    ([is_union_special_form tp, is_union_or_operator tp,
      is_standard_collection_type_alias tp,
      is_typing_module_collection_alias tp].count true) ≤ 1 := by
  cases tp with
  | genericAlias o r nm args =>
      cases r <;>
        simp [is_union_special_form, is_union_or_operator, isInstanceUnionType,
          is_standard_collection_type_alias, is_typing_module_collection_alias,
          originInStandardCollections, typeIsTypingGenericAlias, get_origin,
          OR_OPERATOR_SUPPORTED, List.count_cons] <;>
        cases (lookupTypingAlias o.module o.qualname).isSome <;> simp
  | _ =>
      simp [is_union_special_form, is_union_or_operator, isInstanceUnionType,
        is_standard_collection_type_alias, is_typing_module_collection_alias,
        originInStandardCollections, typeIsTypingGenericAlias, get_origin,
        OR_OPERATOR_SUPPORTED, List.count_cons]

/-- The runtime value `typing.Callable[[int], str]`: its origin is
`collections.abc.Callable` and — on CPython 3.9+ — its runtime class is
`typing._CallableGenericAlias`, a proper subclass of `typing._GenericAlias`,
so the identity test `type(tp) is typing._GenericAlias` fails for it. -/
def callableLegacyAlias : PyExpr :=
  .genericAlias ⟨"collections.abc", "Callable", some "Callable", some "Callable"⟩
    .typingCallableGenericAlias (some "Callable") [.paramsList [intObj], strObj]

/-- C6 has no hypotheses; this closed instance additionally records the four
predicate values on a concrete collection alias. -/
theorem C6_instance :
    [is_union_special_form callableLegacyAlias, is_union_or_operator callableLegacyAlias,
      is_standard_collection_type_alias callableLegacyAlias,
      is_typing_module_collection_alias callableLegacyAlias]
      = [false, false, true, false] := by decide

/-- C5 (counterexample): the claim asserts that the legacy spelling
`typing.Callable[[int], str]` satisfies `is_typing_module_collection_alias`
and not `is_standard_collection_type_alias`; on the modelled runtime
(CPython 3.9+) its runtime class is `typing._CallableGenericAlias`, not
exactly `typing._GenericAlias`, so both predicate values are the opposite of
the claimed ones. -/
theorem C5_counterexample :
    is_typing_module_collection_alias callableLegacyAlias = false
    ∧ is_standard_collection_type_alias callableLegacyAlias = true := by decide

/-- C5 (amended): `is_typing_module_collection_alias x` is true iff `x`'s
origin is in the standard-collection set and `x`'s runtime class is exactly
the legacy `typing._GenericAlias`, and `is_standard_collection_type_alias x`
is true iff `x`'s origin is in that set and its runtime class is not exactly
that class; in particular the legacy spelling `typing.Callable[[int], str]`,
whose runtime class is the subclass `typing._CallableGenericAlias`, satisfies
`is_standard_collection_type_alias` and not
`is_typing_module_collection_alias`. -/
theorem C5_amended_collection_alias_predicates :
    (∀ tp : PyExpr, is_typing_module_collection_alias tp
        = (originInStandardCollections tp && typeIsTypingGenericAlias tp))
    ∧ (∀ tp : PyExpr, is_standard_collection_type_alias tp
        = (originInStandardCollections tp && ! typeIsTypingGenericAlias tp))
    ∧ typeIsTypingGenericAlias callableLegacyAlias = false
    ∧ originInStandardCollections callableLegacyAlias = true
    ∧ is_standard_collection_type_alias callableLegacyAlias = true
    ∧ is_typing_module_collection_alias callableLegacyAlias = false := by
  refine ⟨fun tp => rfl, fun tp => rfl, by decide, by decide, by decide, by decide⟩

/-- The annotation value `typing.Union[int, None]` — which is also what
`typing.Optional[int]` evaluates to (the `typing` module normalizes
`Optional[X]` to `Union[X, NoneType]`). -/
def unionIntNone : PyExpr := .specialUnion [intObj, .noneTypeObj]

/-- C1: a union containing the `None` type, here `typing.Union[int, None]`,
renders as `"Optional[int]"` under the default configuration (and any
configuration whose `optional_syntax` is neither `or_operator` nor
`union_special_form`), as `"int | None"` when `optional_syntax` is
`or_operator`, and as `"Union[int, None]"` when it is `union_special_form` —
for every choice of the remaining options, with the default trimming list. -/
theorem C1_optional_collapse (config : TypenamesConfig)
    (hrm : config.removeModules = DEFAULT_REMOVE_MODULES) :
    typenames unionIntNone config
      = match config.optionalStyle with
        | .or_operator => "int | None"
        | .union_special_form => "Union[int, None]"
        | _ => "Optional[int]" := by
  obtain ⟨us, os, cs, rm⟩ := config
  simp only at hrm
  subst hrm
  cases us <;> cases os <;> cases cs <;> decide

/-- Witness for C1 at the default configuration. -/
theorem C1_witness : typenames unionIntNone defaultConfig = "Optional[int]" :=
  C1_optional_collapse defaultConfig rfl

/-! ## Renderer infrastructure: weights and fuel-independence -/

theorem nodeWeight_typeNode (tp : PyExpr) (c : TypenamesConfig) :
    nodeWeight (.typeNode tp c) = 1 := rfl

theorem nodeWeight_literalNode (tp : PyExpr) (c : TypenamesConfig) :
    nodeWeight (.literalNode tp c) = 1 := rfl

theorem nodeWeight_genericNode (tp : PyExpr) (o : PyOriginVal) (l : List BaseNode)
    (c : TypenamesConfig) : nodeWeight (.genericNode tp o l c) = nodeWeightL l + 1 := rfl

theorem nodeWeight_paramsListNode (tp : PyExpr) (l : List BaseNode) (c : TypenamesConfig) :
    nodeWeight (.paramsListNode tp l c) = nodeWeightL l + 1 := rfl

theorem nodeWeightL_nil : nodeWeightL [] = 0 := rfl

theorem nodeWeightL_cons (a : BaseNode) (l : List BaseNode) :
    nodeWeightL (a :: l) = nodeWeight a + nodeWeightL l := rfl

theorem nodeWeight_pos (n : BaseNode) : 1 ≤ nodeWeight n := by
  cases n <;> simp [nodeWeight_typeNode, nodeWeight_literalNode, nodeWeight_genericNode,
    nodeWeight_paramsListNode]

theorem nodeWeightL_mem_le {a : BaseNode} {l : List BaseNode} (ha : a ∈ l) :
    nodeWeight a ≤ nodeWeightL l := by
  induction l with
  | nil => cases ha
  | cons b bs ih =>
      rcases List.mem_cons.mp ha with h | h
      · subst h; rw [nodeWeightL_cons]; omega
      · have := ih h; rw [nodeWeightL_cons]; omega

theorem nodeWeightL_filter_le (p : BaseNode → Bool) (l : List BaseNode) :
    nodeWeightL (l.filter p) ≤ nodeWeightL l := by
  induction l with
  | nil => simp [nodeWeightL_nil]
  | cons b bs ih =>
      rw [List.filter_cons]
      by_cases hb : p b = true
      · rw [if_pos hb, nodeWeightL_cons, nodeWeightL_cons]; omega
      · rw [if_neg hb, nodeWeightL_cons]
        have := nodeWeight_pos b
        omega

theorem nodeWeightL_filter_lt {p : BaseNode → Bool} {l : List BaseNode}
    (h : ∃ a ∈ l, p a = false) : nodeWeightL (l.filter p) < nodeWeightL l := by
  induction l with
  | nil => rcases h with ⟨a, ha, _⟩; cases ha
  | cons b bs ih =>
      rcases h with ⟨a, ha, hpa⟩
      rw [List.filter_cons]
      rcases List.mem_cons.mp ha with rfl | hmem
      · rw [if_neg (by simp [hpa]), nodeWeightL_cons]
        have h1 := nodeWeightL_filter_le p bs
        have h2 := nodeWeight_pos a
        omega
      · by_cases hb : p b = true
        · rw [if_pos hb, nodeWeightL_cons, nodeWeightL_cons]
          have := ih ⟨a, hmem, hpa⟩
          omega
        · rw [if_neg hb, nodeWeightL_cons]
          have h1 := nodeWeightL_filter_le p bs
          have h2 := nodeWeight_pos b
          omega

/-- A node that satisfies `is_none_type` is a `TypeNode` over `NoneType`, so
its `tp` is the `NoneType` class (the two tests used by `GenericNode.__str__`
— `a.is_none_type` for the guard and `a.tp is not type(None)` for the filter
— agree). -/
theorem isNoneType_tp {a : BaseNode} (h : a.isNoneType = true) :
    tpIsNoneType a.tp = true := by
  cases a with
  | typeNode tp c =>
      cases tp <;> simp_all [BaseNode.isNoneType, BaseNode.tp, tpIsNoneType]
  | genericNode tp o l c => simp [BaseNode.isNoneType] at h
  | paramsListNode tp l c => simp [BaseNode.isNoneType] at h
  | literalNode tp c => simp [BaseNode.isNoneType] at h

/-- After dropping the `NoneType` children, no child is the `NoneType` leaf:
the synthesized union renders through the plain-union branch. -/
theorem filtered_no_none (l : List BaseNode) :
    (l.filter (fun a => ! tpIsNoneType a.tp)).any BaseNode.isNoneType = false := by
  rw [List.any_eq_false]
  intro a ha hno
  have hmem := List.mem_filter.mp ha
  have := isNoneType_tp hno
  simp [this] at hmem

/-- A union with a `NoneType` member loses at least that member to the
filter. -/
theorem any_none_dropped {l : List BaseNode} (h : l.any BaseNode.isNoneType = true) :
    ∃ a ∈ l, (! tpIsNoneType a.tp) = false := by
  rcases List.any_eq_true.mp h with ⟨a, ha, hn⟩
  exact ⟨a, ha, by simp [isNoneType_tp hn]⟩

/-- The fuel-indexed renderer is independent of the fuel as soon as the fuel
reaches the node weight: `renderNode`'s choice of `nodeWeight n` is
canonical. -/
theorem renderNodeF_congr :
    ∀ (f₁ : Nat) (n : BaseNode) (f₂ : Nat), nodeWeight n ≤ f₁ → nodeWeight n ≤ f₂ →
      renderNodeF f₁ n = renderNodeF f₂ n := by
  intro f₁
  induction f₁ with
  | zero =>
      intro n f₂ h₁ _
      have := nodeWeight_pos n
      omega
  | succ f ih =>
    intro n f₂ h₁ h₂
    have hpos := nodeWeight_pos n
    cases f₂ with
    | zero => omega
    | succ g =>
      have hmap : ∀ (l : List BaseNode), nodeWeightL l ≤ f → nodeWeightL l ≤ g →
          l.map (renderNodeF f) = l.map (renderNodeF g) := by
        intro l hl₁ hl₂
        refine List.map_congr_left (fun a ha => ?_)
        exact ih a g (le_trans (nodeWeightL_mem_le ha) hl₁)
          (le_trans (nodeWeightL_mem_le ha) hl₂)
      cases n with
      | typeNode tp c => rfl
      | literalNode tp c => rfl
      | paramsListNode tp args c =>
          have hw₁ : nodeWeightL args ≤ f := by
            rw [nodeWeight_paramsListNode] at h₁; omega
          have hw₂ : nodeWeightL args ≤ g := by
            rw [nodeWeight_paramsListNode] at h₂; omega
          simp only [renderNodeF]
          rw [hmap args hw₁ hw₂]
      | genericNode tp origin args c =>
          have hw₁ : nodeWeightL args ≤ f := by
            rw [nodeWeight_genericNode] at h₁; omega
          have hw₂ : nodeWeightL args ≤ g := by
            rw [nodeWeight_genericNode] at h₂; omega
          have hsynth : ∀ (tps : PyExpr),
              args.any BaseNode.isNoneType = true →
              renderNodeF f (.genericNode tps .typingUnion
                  (args.filter (fun a => ! tpIsNoneType a.tp)) c)
                = renderNodeF g (.genericNode tps .typingUnion
                  (args.filter (fun a => ! tpIsNoneType a.tp)) c) := by
            intro tps hany
            have hlt : nodeWeightL (args.filter (fun a => ! tpIsNoneType a.tp))
                < nodeWeightL args := nodeWeightL_filter_lt (any_none_dropped hany)
            exact ih _ g (by rw [nodeWeight_genericNode]; omega)
              (by rw [nodeWeight_genericNode]; omega)
          have hkmap : ∀ (h : Nat), nodeWeightL args ≤ h →
              (args.filter (fun a => ! tpIsNoneType a.tp)).map (renderNodeF f)
                = (args.filter (fun a => ! tpIsNoneType a.tp)).map (renderNodeF h) := by
            intro h hh
            refine List.map_congr_left (fun a ha => ?_)
            have hm := nodeWeightL_mem_le (List.mem_filter.mp ha).1
            exact ih a h (le_trans hm hw₁) (le_trans hm hh)
          simp only [renderNodeF]
          split_ifs with hc1 hc2 hc3 hc4 hc5 hc6 hc7 hc8 hc9 hc10 hc11 hc12 <;>
            first
              | rw [hmap args hw₁ hw₂]
              | rw [hsynth _ (by tauto)]
              | rw [hkmap g hw₂]

theorem is_union_special_form_specialUnion (args : List PyExpr) :
    is_union_special_form (.specialUnion args) = true := rfl

/-- Rendering a special-form union node none of whose children is the
`NoneType` leaf (such as the union synthesized by the `Optional` re-wrap):
the plain-union branch applies, joining with `" | "` under `or_operator`
union syntax and wrapping in `Union[...]` otherwise. -/
theorem renderNode_synth_union (config : TypenamesConfig) (tps : List PyExpr)
    (kept : List BaseNode) (hnone : kept.any BaseNode.isNoneType = false) :
    renderNode (.genericNode (.specialUnion tps) .typingUnion kept config)
      = if config.unionStyle = .or_operator
        then String.intercalate " | " (kept.map renderNode)
        else wrapHead config "typing." "Union" (kept.map renderNode) := by
  have hkm : kept.map (renderNodeF (nodeWeightL kept)) = kept.map renderNode :=
    List.map_congr_left fun a ha =>
      renderNodeF_congr _ a _ (nodeWeightL_mem_le ha) le_rfl
  show renderNodeF (nodeWeight _) _ = _
  rw [nodeWeight_genericNode]
  simp only [renderNodeF, is_union_special_form_specialUnion, hnone, if_true,
    Bool.false_eq_true, if_false]
  by_cases hu : config.unionStyle = .or_operator <;> simp [hu, hkm]

/-- C2: rendering a special-form union that contains a `NoneType` member and
two or more other members, with `optional_syntax = optional_special_form`,
drops the `NoneType` member, synthesizes a fresh union node over the
remaining members and wraps that single node in `Optional`; concretely,
`typing.Union[int, str, None]` yields `"Optional[Union[int, str]]"` with the
default union syntax and `"Optional[int | str]"` when `union_syntax` is
additionally `or_operator`. -/
theorem C2_optional_rewrap (config : TypenamesConfig)
    (hos : config.optionalStyle = .optional_special_form)
    (hrm : config.removeModules = DEFAULT_REMOVE_MODULES) :
    (∀ (tps : List PyExpr) (origin : PyOriginVal) (argNodes : List BaseNode),
      argNodes.any BaseNode.isNoneType = true →
      1 < (argNodes.filter (fun a => ! tpIsNoneType a.tp)).length →
      renderNode (.genericNode (.specialUnion tps) origin argNodes config)
        = "Optional[" ++
            (if config.unionStyle = .or_operator
             then String.intercalate " | "
                ((argNodes.filter (fun a => ! tpIsNoneType a.tp)).map renderNode)
             else "Union[" ++ String.intercalate ", "
                ((argNodes.filter (fun a => ! tpIsNoneType a.tp)).map renderNode) ++ "]")
          ++ "]")
    ∧ typenames (.specialUnion [intObj, strObj, .noneTypeObj]) config
        = (if config.unionStyle = .or_operator then "Optional[int | str]"
           else "Optional[Union[int, str]]") := by
  constructor
  · intro tps origin argNodes hany hlen
    have hstrip : stripModules config "typing." = "" := by
      simp only [stripModules, removeModulesPatterns]
      rw [hrm]
      decide
    have hlt : nodeWeightL (argNodes.filter (fun a => ! tpIsNoneType a.tp))
        < nodeWeightL argNodes := nodeWeightL_filter_lt (any_none_dropped hany)
    show renderNodeF (nodeWeight _) _ = _
    rw [nodeWeight_genericNode]
    simp only [renderNodeF, is_union_special_form_specialUnion, hany, hos, if_true,
      reduceCtorEq, if_false, hlen, gt_iff_lt, ite_true]
    have hsr : renderNodeF (nodeWeightL argNodes)
        (.genericNode
          (.specialUnion ((argNodes.filter (fun a => ! tpIsNoneType a.tp)).map BaseNode.tp))
          .typingUnion (argNodes.filter (fun a => ! tpIsNoneType a.tp)) config)
        = renderNode (.genericNode
          (.specialUnion ((argNodes.filter (fun a => ! tpIsNoneType a.tp)).map BaseNode.tp))
          .typingUnion (argNodes.filter (fun a => ! tpIsNoneType a.tp)) config) :=
      renderNodeF_congr _ _ _ (by rw [nodeWeight_genericNode]; omega) le_rfl
    rw [hsr, renderNode_synth_union config _ _ (filtered_no_none argNodes)]
    by_cases hu : config.unionStyle = .or_operator
    · simp only [hu, ite_true]
      simp only [wrapHead, hstrip]
      rfl
    · simp only [hu, ite_false, if_neg hu]
      simp only [wrapHead, hstrip]
      rfl
  · obtain ⟨us, os, cs, rm⟩ := config
    dsimp only at hos hrm
    subst hos
    subst hrm
    cases us <;> cases cs <;> decide

/-- Witness for C2 with `or_operator` union syntax. -/
theorem C2_witness :
    typenames (.specialUnion [intObj, strObj, .noneTypeObj])
        { optionalStyle := .optional_special_form, unionStyle := .or_operator }
      = "Optional[int | str]" := by
  have h := (C2_optional_rewrap
    { optionalStyle := .optional_special_form, unionStyle := .or_operator } rfl rfl).2
  simpa using h

theorem is_union_special_form_genericAlias (o : PyClassOrigin) (r : PyAliasRepr)
    (nm : Option String) (args : List PyExpr) :
    is_union_special_form (.genericAlias o r nm args) = false := rfl

theorem is_union_or_operator_genericAlias (o : PyClassOrigin) (r : PyAliasRepr)
    (nm : Option String) (args : List PyExpr) :
    is_union_or_operator (.genericAlias o r nm args) = false := rfl

theorem typeIsTypingGenericAlias_genericAlias (o : PyClassOrigin) (r : PyAliasRepr)
    (nm : Option String) (args : List PyExpr) :
    typeIsTypingGenericAlias (.genericAlias o r nm args)
      = decide (r = .typingGenericAlias) := by
  cases r <;> rfl

theorem originInStandardCollections_genericAlias (o : PyClassOrigin) (r : PyAliasRepr)
    (nm : Option String) (args : List PyExpr) :
    originInStandardCollections (.genericAlias o r nm args)
      = (lookupTypingAlias o.module o.qualname).isSome := rfl

/-- C3: for a collection family in the static alias registry (identified by
the standard class's module and qualified name, with `aliasName` the typing
alias's `_name`), the modern standard-class spelling (runtime class not
exactly `typing._GenericAlias`, no `_name`) and the legacy typing-module
spelling (`_name` equal to the registry alias name) of the same
parameterized generic render to the identical string under any configuration
whose `standard_collection_syntax` is not `as_given` — over arbitrary
argument lists and arbitrary remaining options. -/
theorem C3_collection_spelling_converges (m q aliasName : String)
    (hmap : lookupTypingAlias m q = some aliasName)
    (pyNm tNm modTN : Option String) (rMod rLeg : PyAliasRepr)
    (hrMod : rMod ≠ .typingGenericAlias)
    (args : List PyExpr) (config : TypenamesConfig)
    (hs : config.collectionStyle ≠ .as_given) :
    typenames (.genericAlias ⟨m, q, pyNm, tNm⟩ rMod modTN args) config
      = typenames (.genericAlias ⟨m, q, pyNm, tNm⟩ rLeg (some aliasName) args) config := by
  have hmod : decide (rMod = PyAliasRepr.typingGenericAlias) = false := decide_eq_false hrMod
  simp only [typenames, parse_type_tree]
  show renderNodeF (nodeWeight _) _ = renderNodeF (nodeWeight _) _
  rw [nodeWeight_genericNode, nodeWeight_genericNode]
  cases rLeg <;> cases hcs : config.collectionStyle <;>
    simp_all [renderNodeF, is_union_special_form_genericAlias,
      is_union_or_operator_genericAlias, is_standard_collection_type_alias,
      is_typing_module_collection_alias, originInStandardCollections_genericAlias,
      typeIsTypingGenericAlias_genericAlias, typingAliasNameFor, tpUnderscoreName,
      get_origin, originModuleDot, originQualnameOf]

/-- Witness for C3 at the `dict` family under `standard_class` syntax: both
spellings of `dict[str, int]` render `"dict[str, int]"`. -/
theorem C3_witness :
    typenames (.genericAlias ⟨"builtins", "dict", some "dict", none⟩ .builtinGenericAlias
        none [strObj, intObj]) { collectionStyle := .standard_class }
      = typenames (.genericAlias ⟨"builtins", "dict", some "dict", none⟩ .typingGenericAlias
        (some "Dict") [strObj, intObj]) { collectionStyle := .standard_class }
    ∧ typenames (.genericAlias ⟨"builtins", "dict", some "dict", none⟩ .builtinGenericAlias
        none [strObj, intObj]) { collectionStyle := .standard_class } = "dict[str, int]" := by
  refine ⟨C3_collection_spelling_converges "builtins" "dict" "Dict" (by decide)
    (some "dict") none none .builtinGenericAlias .typingGenericAlias (by decide)
    [strObj, intObj] { collectionStyle := .standard_class } (by decide), by decide⟩

/-- C7: configuration construction succeeds exactly when each of the three
syntax-choice values is in its enumeration; on success the fields hold the
corresponding members (no silent coercion) and the remove-modules list is
stored as given; and an entry-point call whose overrides contain a value
outside its enumeration returns the construction error — no tree is built
and nothing is rendered. -/
theorem C7_config_validation :
    (∀ raw : RawConfig,
      (∃ c, mkConfig raw = Except.ok c)
        ↔ ((UnionStyle.ofValue? raw.unionStyle).isSome
            ∧ (OptionalStyle.ofValue? raw.optionalStyle).isSome
            ∧ (StandardCollectionStyle.ofValue? raw.collectionStyle).isSome))
    ∧ (∀ (raw : RawConfig) (c : TypenamesConfig), mkConfig raw = Except.ok c →
        UnionStyle.ofValue? raw.unionStyle = some c.unionStyle
        ∧ OptionalStyle.ofValue? raw.optionalStyle = some c.optionalStyle
        ∧ StandardCollectionStyle.ofValue? raw.collectionStyle = some c.collectionStyle
        ∧ c.removeModules = raw.removeModules)
    ∧ (∀ (tp : PyExpr) (config : Option TypenamesConfig) (ov : ConfigOverrides),
        ((∃ s, ov.unionStyle = some s ∧ UnionStyle.ofValue? s = none)
          ∨ (∃ s, ov.optionalStyle = some s ∧ OptionalStyle.ofValue? s = none)
          ∨ (∃ s, ov.collectionStyle = some s ∧ StandardCollectionStyle.ofValue? s = none)) →
        ∃ e, typenames_entry tp config ov = Except.error e) := by
  refine ⟨?_, ?_, ?_⟩
  · intro raw
    constructor
    · rintro ⟨c, hc⟩
      rw [mkConfig] at hc
      cases hu : UnionStyle.ofValue? raw.unionStyle <;> rw [hu] at hc
      · cases hc
      cases ho : OptionalStyle.ofValue? raw.optionalStyle <;> rw [ho] at hc
      · cases hc
      cases hs : StandardCollectionStyle.ofValue? raw.collectionStyle <;> rw [hs] at hc
      · cases hc
      simp [hu, ho, hs]
    · rintro ⟨hu, ho, hs⟩
      rw [Option.isSome_iff_exists] at hu ho hs
      obtain ⟨u, hu⟩ := hu
      obtain ⟨o, ho⟩ := ho
      obtain ⟨s, hs⟩ := hs
      exact ⟨_, by rw [mkConfig, hu, ho, hs]⟩
  · intro raw c hc
    rw [mkConfig] at hc
    cases hu : UnionStyle.ofValue? raw.unionStyle <;> rw [hu] at hc
    · cases hc
    cases ho : OptionalStyle.ofValue? raw.optionalStyle <;> rw [ho] at hc
    · cases hc
    cases hs : StandardCollectionStyle.ofValue? raw.collectionStyle <;> rw [hs] at hc
    · cases hc
    cases hc
    exact ⟨rfl, rfl, rfl, rfl⟩
  · intro tp config ov hbad
    have herr : ∀ raw : RawConfig,
        (raw.unionStyle = ov.unionStyle.getD raw.unionStyle)
        → (raw.optionalStyle = ov.optionalStyle.getD raw.optionalStyle)
        → (raw.collectionStyle = ov.collectionStyle.getD raw.collectionStyle)
        → ∃ e, mkConfig raw = Except.error e := by
      intro raw hru hro hrs
      rw [mkConfig]
      cases hu : UnionStyle.ofValue? raw.unionStyle
      · exact ⟨_, rfl⟩
      cases ho : OptionalStyle.ofValue? raw.optionalStyle
      · exact ⟨_, rfl⟩
      cases hs : StandardCollectionStyle.ofValue? raw.collectionStyle
      · exact ⟨_, rfl⟩
      exfalso
      rcases hbad with ⟨s, hos, hnone⟩ | ⟨s, hos, hnone⟩ | ⟨s, hos, hnone⟩
      · rw [hos] at hru
        rw [hru, Option.getD_some] at hu
        rw [hnone] at hu
        cases hu
      · rw [hos] at hro
        rw [hro, Option.getD_some] at ho
        rw [hnone] at ho
        cases ho
      · rw [hos] at hrs
        rw [hrs, Option.getD_some] at hs
        rw [hnone] at hs
        cases hs
    have hres : ∃ e, resolveConfig config ov = Except.error e := by
      cases config with
      | none =>
          obtain ⟨e, he⟩ := herr (rawOfOverrides ov)
            (by cases h : ov.unionStyle <;> simp [rawOfOverrides, h])
            (by cases h : ov.optionalStyle <;> simp [rawOfOverrides, h])
            (by cases h : ov.collectionStyle <;> simp [rawOfOverrides, h])
          exact ⟨e, by rw [resolveConfig, he]⟩
      | some c =>
          obtain ⟨e, he⟩ := herr
            { unionStyle := ov.unionStyle.getD (UnionStyle.value c.unionStyle),
              optionalStyle := ov.optionalStyle.getD (OptionalStyle.value c.optionalStyle),
              collectionStyle :=
                ov.collectionStyle.getD (StandardCollectionStyle.value c.collectionStyle),
              removeModules := ov.removeModules.getD c.removeModules }
            (by cases h : ov.unionStyle <;> simp [h])
            (by cases h : ov.optionalStyle <;> simp [h])
            (by cases h : ov.collectionStyle <;> simp [h])
          exact ⟨e, by rw [resolveConfig, replaceConfig]; exact he⟩
    obtain ⟨e, he⟩ := hres
    exact ⟨e, by rw [typenames_entry, parse_type_tree_entry, he]⟩

/-- Witness for C7: an invalid `union_syntax` override makes the entry point
fail before parsing. -/
theorem C7_witness :
    ∃ e, typenames_entry intObj none { unionStyle := some "bogus" } = Except.error e :=
  C7_config_validation.2.2 intObj none { unionStyle := some "bogus" }
    (Or.inl ⟨"bogus", rfl, rfl⟩)

/-- C8: a list value (the callable-parameter-list shape) parses to a
`ParamsListNode` whose children are each parsed with a freshly built default
configuration, not the caller's: the children are literally
`parse_type_tree a defaultConfig` for each element, they are identical for
any two caller configurations, and so is the rendered text of the node. -/
theorem C8_params_list_uses_default_config (elems : List PyExpr)
    (cfg₁ cfg₂ : TypenamesConfig) :
    parse_type_tree (.paramsList elems) cfg₁
        = .paramsListNode (.paramsList elems) (parseArgListDefault elems) cfg₁
    ∧ parseArgListDefault elems = elems.map (fun a => parse_type_tree a defaultConfig)
    ∧ renderNode (parse_type_tree (.paramsList elems) cfg₁)
        = renderNode (parse_type_tree (.paramsList elems) cfg₂) := by
  refine ⟨rfl, ?_, ?_⟩
  · induction elems with
    | nil => rfl
    | cons a as ih => simp [parseArgListDefault, ih]
  · rfl

/-- C9: calling the entry point with a configuration reference plus keyword
overrides leaves every pre-existing configuration cell — in particular the
caller's configuration object with all its fields, including its
remove-modules list — unchanged: the overrides are applied to a freshly
allocated copy, which is the configuration the tree is parsed with. -/
theorem C9_caller_config_unchanged (st : ConfigStore) (tp : PyExpr) (ref : Nat)
    (ov : ConfigOverrides) (i : Nat) (hi : i < st.cells.length) :
    storeGet (parse_type_tree_store st tp ref ov).1 i = storeGet st i
    ∧ (∀ (config : TypenamesConfig) (c : TypenamesConfig),
        storeGet st ref = some config → replaceConfig config ov = Except.ok c →
        (parse_type_tree_store st tp ref ov).2
            = Except.ok (parse_type_tree tp c, st.cells.length)
          ∧ (parse_type_tree_store st tp ref ov).1.cells = st.cells ++ [c]) := by
  constructor
  · rw [parse_type_tree_store]
    cases h1 : storeGet st ref with
    | none => rfl
    | some config =>
      dsimp only
      cases h2 : replaceConfig config ov with
      | error e => rfl
      | ok c =>
        dsimp only
        simp only [storeGet]
        exact List.getElem?_append_left hi
  · intro config c h1 h2
    rw [parse_type_tree_store, h1]
    dsimp only
    rw [h2]
    exact ⟨rfl, rfl⟩

/-- Witness for C9 at a one-cell store whose cell is the default
configuration, with a `union_syntax` override. -/
theorem C9_witness :
    storeGet (parse_type_tree_store ⟨[defaultConfig]⟩ intObj 0
        { unionStyle := some "or_operator" }).1 0
      = storeGet ⟨[defaultConfig]⟩ 0 :=
  (C9_caller_config_unchanged ⟨[defaultConfig]⟩ intObj 0
    { unionStyle := some "or_operator" } 0 (by decide)).1
